import Mathlib

/-
Verification of the cache-lifecycle core of the grid collection game.

The embedding below follows the source closely:

* `src/src/main.ts` (second document, the authoritative variant for
  `Cache`, `spawnCache`, the popup handlers, `movePlayer` and
  `regenerateCachesAround`), and
* `src/unnamed/part_000` (the `CacheManager` variant, the `#reset`
  handler and the `luck`-based `updateNeighborhood`).

JavaScript arrays are mutable heap objects that can be aliased (the
memento code depends on this), so coin arrays live in an explicit store
`CoinArrayStore`; a `Cache` holds a reference (index) into that store.
`Math.random()` is modelled as a stream `rng : Nat -> Rat` together with
a cursor `rngIdx`: each call reads the value at the cursor and advances
it.  The leaflet function `LatLng.distanceTo` is external library code;
the game functions that call it take the distance function as an
explicit parameter `DistFn`.
-/

set_option maxRecDepth 100000

/-- Grid tile size in degrees; `TILE_DEGREES = 1e-4` in the source. -/
def TILE_DEGREES : ℚ := 1 / 10000

/-- Radius of the neighborhood window; `NEIGHBORHOOD_SIZE = 8`. -/
def NEIGHBORHOOD_SIZE : Int := 8

/-- Spawn probability threshold; `CACHE_SPAWN_PROBABILITY = 0.1`. -/
def CACHE_SPAWN_PROBABILITY : ℚ := 1 / 10

/-- The `_PLAYER_START` constant of `part_000`: `(36.9895, -122.0628)`. -/
def PLAYER_START : ℚ × ℚ := (369895 / 10000, -1220628 / 10000)

/-- A coin: `type Coin = { i: number; j: number; serial: number }`. -/
structure Coin where
  i : Int
  j : Int
  serial : Nat
deriving DecidableEq

/-- The heap of JavaScript coin arrays; a reference is an index. -/
abbrev CoinArrayStore := List (List Coin)

/-- Read the array behind a reference (empty for a dangling reference). -/
def readRef (st : CoinArrayStore) (r : Nat) : List Coin :=
  st.getD r []

/-- Overwrite the array behind a reference (in-place mutation). -/
def writeRef (st : CoinArrayStore) (r : Nat) (v : List Coin) : CoinArrayStore :=
  st.set r v

/-- Allocate a fresh array object, returning the new store and reference. -/
def allocRef (st : CoinArrayStore) (v : List Coin) : CoinArrayStore × Nat :=
  (st ++ [v], st.length)

/-- The `Cache` class.  Its `coins` field is a mutable array, modelled as
a store reference; `memento` holds the `cacheCoins` array of the
`CacheMemento` object (that class has no other state), again as a store
reference. -/
structure Cache where
  i : Int
  j : Int
  coinsRef : Nat
  memento : Option Nat
deriving DecidableEq

/-- Method `Cache.saveState`: `this.memento = new CacheMemento([...this.coins])`.
The spread copies the live array into a freshly allocated one.  Returns
the new store, the updated cache object, and the memento array reference. -/
def Cache.saveState (st : CoinArrayStore) (c : Cache) : CoinArrayStore × Cache × Nat :=
  let p := allocRef st (readRef st c.coinsRef)
  (p.1, { c with memento := some p.2 }, p.2)

/-- Method `Cache.restoreState`: `this.coins = memento.cacheCoins`.  The
field is rebound to the memento array itself, with no copy: the live
collection becomes an alias of the stored one. -/
def Cache.restoreState (c : Cache) (m : Nat) : Cache :=
  { c with coinsRef := m }

/-- Method `Cache.addCoins`: `this.coins.push(...coins)`, an in-place
mutation of the array behind `coinsRef`. -/
def Cache.addCoins (st : CoinArrayStore) (c : Cache) (coins : List Coin) : CoinArrayStore :=
  writeRef st c.coinsRef (readRef st c.coinsRef ++ coins)

/-- Method `Cache.collectCoins`: reads the length, rebinds `this.coins`
to a fresh empty array, and returns the count. -/
def Cache.collectCoins (st : CoinArrayStore) (c : Cache) : Nat × CoinArrayStore × Cache :=
  let n := (readRef st c.coinsRef).length
  let p := allocRef st []
  (n, p.1, { c with coinsRef := p.2 })

/-- Getter `Cache.coinCount`: `this.coins.length`. -/
def Cache.coinCount (st : CoinArrayStore) (c : Cache) : Nat :=
  (readRef st c.coinsRef).length

/-- Map keys: the source keys `cacheMap` by the string `i,j`, which is
injective in the integer pair, so the pair is used directly. -/
abbrev CellKey := Int × Int

/-- The `cacheMap : Map<string, Cache>`, as an insertion-ordered list of
entries with unique keys. -/
abbrev CacheMap := List (CellKey × Cache)

/-- `Map.set`: replace in place if the key is present, else append. -/
def mapSet : CacheMap → CellKey → Cache → CacheMap
  | [], k, v => [(k, v)]
  | e :: t, k, v => if e.1 = k then (k, v) :: t else e :: mapSet t k v

/-- `Map.get` / `Map.has`. -/
def mapGet : CacheMap → CellKey → Option Cache
  | [], _ => none
  | e :: t, k => if e.1 = k then some e.2 else mapGet t k

/-- `Map.delete`. -/
def mapDelete : CacheMap → CellKey → CacheMap
  | [], _ => []
  | e :: t, k => if e.1 = k then mapDelete t k else e :: mapDelete t k

/-- The mutable globals of the game: the coin-array heap, the cache map,
`playerPoints` (score), `playerInventory`, `coinIdCounter`, the
`Math.random()` stream with its cursor, and the player marker position. -/
structure GameState where
  store : CoinArrayStore
  cacheMap : CacheMap
  playerPoints : Nat
  playerInventory : Nat
  coinIdCounter : Nat
  rng : Nat → ℚ
  rngIdx : Nat
  playerLat : ℚ
  playerLng : ℚ

/-- Initial globals: empty map, zero counters, marker at `NULL_ISLAND`. -/
def initState (rng : Nat → ℚ) : GameState :=
  { store := [], cacheMap := [], playerPoints := 0, playerInventory := 0,
    coinIdCounter := 0, rng := rng, rngIdx := 0, playerLat := 0, playerLng := 0 }

/-- Coin count of a fresh cache: `Math.floor(Math.random() * 5) + 1`,
applied to the drawn random value `q`. -/
def spawnCoinNum (q : ℚ) : Nat :=
  (Int.floor (q * 5)).toNat + 1

/-- Function `spawnCache(i, j)`: construct a `Cache` (whose constructor
allocates an empty coin array), `cacheMap.set` it, then draw a random
coin count and `addCoins` coins whose serials are the array indices
`0, 1, ...` produced by `Array.from`.  The map-rendering part
(rectangle, popup) is UI plumbing and has no core state. -/
def spawnCache (i j : Int) (s : GameState) : GameState :=
  let p := allocRef s.store []
  let cache : Cache := ⟨i, j, p.2, none⟩
  let m1 := mapSet s.cacheMap (i, j) cache
  let q := s.rng s.rngIdx
  let n := spawnCoinNum q
  let cacheCoins := (List.range n).map (fun serial => ⟨i, j, serial⟩)
  { s with store := Cache.addCoins p.1 cache cacheCoins,
           cacheMap := m1,
           rngIdx := s.rngIdx + 1 }

/-- The `#collectCoins` click handler of the popup bound to the cache at
`k`: if the cache has coins, move their count into the inventory. -/
def collectHandler (k : CellKey) (s : GameState) : GameState :=
  match mapGet s.cacheMap k with
  | none => s
  | some cache =>
    if 0 < Cache.coinCount s.store cache then
      let r := Cache.collectCoins s.store cache
      { s with playerInventory := s.playerInventory + r.1,
               store := r.2.1,
               cacheMap := mapSet s.cacheMap k r.2.2 }
    else s

/-- The `#depositCoins` click handler: if the inventory is nonempty,
append that many coins with serials `coinIdCounter++` each, add to the
score, and clear the inventory. -/
def depositHandler (k : CellKey) (s : GameState) : GameState :=
  match mapGet s.cacheMap k with
  | none => s
  | some cache =>
    if 0 < s.playerInventory then
      let n := s.playerInventory
      let depositCoins := (List.range n).map (fun m => ⟨cache.i, cache.j, s.coinIdCounter + m⟩)
      { s with store := Cache.addCoins s.store cache depositCoins,
               coinIdCounter := s.coinIdCounter + n,
               playerPoints := s.playerPoints + n,
               playerInventory := 0 }
    else s

/-- The row-major list of window cells `center - 8 .. center + 8`, as
iterated by the nested `for` loops. -/
def windowRange (c : Int) : List Int :=
  (List.range (2 * NEIGHBORHOOD_SIZE.toNat + 1)).map (fun t => c - NEIGHBORHOOD_SIZE + t)

/-- All cells of the square window around `(pI, pJ)`, row-major. -/
def windowCells (pI pJ : Int) : List CellKey :=
  (windowRange pI).flatMap (fun i => (windowRange pJ).map (fun j => (i, j)))

/-- The player cell: `Math.floor((pos - NULL_ISLAND) / TILE_DEGREES)`
componentwise (`NULL_ISLAND` is `(0, 0)`). -/
def playerCellOf (pos : ℚ × ℚ) : CellKey :=
  (Int.floor (pos.1 / TILE_DEGREES), Int.floor (pos.2 / TILE_DEGREES))

/-- The body of the window loop of `regenerateCachesAround` in `main.ts`
for one cell: if the cell has a live cache, restore from its memento when
one exists and then `spawnCache` again (overwriting the entry); otherwise
draw `Math.random()` and spawn when it is below the threshold. -/
def regenCellStep (s : GameState) (k : CellKey) : GameState :=
  match mapGet s.cacheMap k with
  | some cache =>
    let s1 :=
      match cache.memento with
      | some m => { s with cacheMap := mapSet s.cacheMap k (Cache.restoreState cache m) }
      | none => s
    spawnCache k.1 k.2 s1
  | none =>
    let q := s.rng s.rngIdx
    let s1 := { s with rngIdx := s.rngIdx + 1 }
    if q < CACHE_SPAWN_PROBABILITY then spawnCache k.1 k.2 s1 else s1

/-- Type of the external `LatLng.distanceTo` collaborator from leaflet. -/
abbrev DistFn := ℚ × ℚ → ℚ × ℚ → ℚ

/-- Position of the cell corner of a cache, as computed in the eviction
sweep: `NULL_ISLAND + (i, j) * TILE_DEGREES`. -/
def cellLatLng (c : Cache) : ℚ × ℚ :=
  (c.i * TILE_DEGREES, c.j * TILE_DEGREES)

/-- One entry of the eviction sweep `cacheMap.forEach(...)`: when the
distance from the player exceeds `TILE_DEGREES * NEIGHBORHOOD_SIZE * 2`,
`saveState` the cache (allocating the memento copy on the object) and
delete the entry from the map. -/
def evictStep (dist : DistFn) (pos : ℚ × ℚ) (s : GameState) (e : CellKey × Cache) : GameState :=
  if dist pos (cellLatLng e.2) > TILE_DEGREES * (NEIGHBORHOOD_SIZE : ℚ) * 2 then
    let r := Cache.saveState s.store e.2
    { s with store := r.1, cacheMap := mapDelete s.cacheMap e.1 }
  else s

/-- Function `regenerateCachesAround(playerPos)` of `main.ts`: remove the
rectangle layers (pure UI, no core state), run the window loop, then the
eviction sweep over the entries present after the loop. -/
def regenerateCachesAround (dist : DistFn) (pos : ℚ × ℚ) (s : GameState) : GameState :=
  let pc := playerCellOf pos
  let s1 := (windowCells pc.1 pc.2).foldl regenCellStep s
  s1.cacheMap.foldl (evictStep dist pos) s1

/-- Function `movePlayer(dx, dy)`: shift the marker and recompute. -/
def movePlayer (dist : DistFn) (dx dy : ℚ) (s : GameState) : GameState :=
  let newLat := s.playerLat + dy
  let newLng := s.playerLng + dx
  let s1 := { s with playerLat := newLat, playerLng := newLng }
  regenerateCachesAround dist (newLat, newLng) s1

/-- The `#resetGame` click handler (present in both files): zero the
score and the inventory. -/
def resetGameHandler (s : GameState) : GameState :=
  { s with playerPoints := 0, playerInventory := 0 }

/-- Modelled from the spec: the file `luck.ts` imported by `part_000` is
not under `src/`.  Per the spec (section 4.1) it is a deterministic hash
of the cell coordinate key into the unit interval `[0,1)` with no
mutable state; the coordinate-string encoding `[i, j].toString()` is
injective in the integer pair, so the hash is taken over the pair. -/
def luck (i j : Int) : ℚ :=
  let enc : Int → Nat := fun z => if z < 0 then 2 * z.natAbs + 1 else 2 * z.natAbs
  (((enc i * 92821 + enc j * 31 + 7) % 65521 : Nat) : ℚ) / 65521

/-- Row index of the window center used by `updateNeighborhood` in
`part_000`: `Math.floor((center.lat - _PLAYER_START.lat) * 10000)`. -/
def neighborCellI (center : ℚ × ℚ) : Int :=
  Int.floor ((center.1 - PLAYER_START.1) * 10000)

/-- Column index of the window center used by `updateNeighborhood`:
`Math.floor((center.lng - _PLAYER_START.lng) * 10000)`. -/
def neighborCellJ (center : ℚ × ℚ) : Int :=
  Int.floor ((center.2 - PLAYER_START.2) * 10000)

/-- Function `updateNeighborhood(center)` of `part_000`: wipe rectangle
layers (UI only), then for every window cell spawn a cache when
`luck([i, j].toString()) < CACHE_SPAWN_PROBABILITY`.  (The
`newNeighborhood` set it builds is never read and is dropped.) -/
def updateNeighborhood (center : ℚ × ℚ) (s : GameState) : GameState :=
  (windowCells (neighborCellI center) (neighborCellJ center)).foldl
    (fun acc k =>
      if luck k.1 k.2 < CACHE_SPAWN_PROBABILITY then spawnCache k.1 k.2 acc else acc) s

/-- The cells of a window recomputation for which `updateNeighborhood`
decides to spawn: exactly the window cells passing the `luck` test. -/
def updateNeighborhoodSpawnedCells (center : ℚ × ℚ) : List CellKey :=
  (windowCells (neighborCellI center) (neighborCellJ center)).filter
    (fun k => decide (luck k.1 k.2 < CACHE_SPAWN_PROBABILITY))

/-- The `#reset` click handler of `part_000`: when the confirm dialog is
accepted, move the marker back to `_PLAYER_START`, run
`updateNeighborhood` there, and zero `playerPoints`; then (outside the
confirm branch) run a `Math.random()`-driven spawn loop over the window
around `(0, 0)`.  The confirm outcome is external input, passed as a
boolean.  `localStorage` and map panning are UI plumbing. -/
def resetHandler (confirmOk : Bool) (s : GameState) : GameState :=
  let s1 :=
    if confirmOk then
      let s0 := { s with playerLat := PLAYER_START.1, playerLng := PLAYER_START.2 }
      let sU := updateNeighborhood PLAYER_START s0
      { sU with playerPoints := 0 }
    else s
  (windowCells 0 0).foldl
    (fun acc k =>
      let q := acc.rng acc.rngIdx
      let acc1 := { acc with rngIdx := acc.rngIdx + 1 }
      if q < CACHE_SPAWN_PROBABILITY then spawnCache k.1 k.2 acc1 else acc1) s1

/-- The discrete player-visible events that drive the core. -/
inductive GameOp where
  | move (dx dy : ℚ)
  | clickCollect (i j : Int)
  | clickDeposit (i j : Int)
  | spawnDirect (i j : Int)
  | neighborhoodUpdate (lat lng : ℚ)
  | resetClick (confirmOk : Bool)
  | resetGameClick

/-- Dispatch of one event to the corresponding source handler. -/
def stepOp (dist : DistFn) (s : GameState) : GameOp → GameState
  | .move dx dy => movePlayer dist dx dy s
  | .clickCollect i j => collectHandler (i, j) s
  | .clickDeposit i j => depositHandler (i, j) s
  | .spawnDirect i j => spawnCache i j s
  | .neighborhoodUpdate lat lng => updateNeighborhood (lat, lng) s
  | .resetClick ok => resetHandler ok s
  | .resetGameClick => resetGameHandler s

/-- Run a sequence of events from the initial state. -/
def runOps (dist : DistFn) (rng : Nat → ℚ) (ops : List GameOp) : GameState :=
  ops.foldl (stepOp dist) (initState rng)

/-- The serials of the coins a single event mints through the deposit
handler: `n = playerInventory` serials `coinIdCounter ..< coinIdCounter + n`
exactly when the handler finds a cache and the inventory guard passes;
empty for every other event. -/
def emittedSerials (s : GameState) : GameOp → List Nat
  | .clickDeposit i j =>
    if (mapGet s.cacheMap (i, j)).isSome ∧ 0 < s.playerInventory then
      (List.range s.playerInventory).map (fun m => s.coinIdCounter + m)
    else []
  | _ => []

/-- One step of the deposited-serial trace: advance the state and append
the serials minted by the event. -/
def depositedSerialsAux (dist : DistFn) (p : GameState × List Nat) (op : GameOp) :
    GameState × List Nat :=
  (stepOp dist p.1 op, p.2 ++ emittedSerials p.1 op)

/-- All serials minted by deposits along a run, in order. -/
def depositedSerials (dist : DistFn) (rng : Nat → ℚ) (ops : List GameOp) : List Nat :=
  (ops.foldl (depositedSerialsAux dist) (initState rng, [])).2

/-- Modelled from the leaflet library (external dependency, not in this
repository): `LatLng.distanceTo` returns meters on a spherical Earth of
radius 6371000 m.  For two points that differ in only one coordinate and
lie on or near the equator — the only inputs the concrete runs below
apply it to — the geodesic length is `R * |delta| * pi / 180`;  `pi` is
replaced by the rational `355 / 113` (error under `3e-7`, irrelevant to
comparisons against the threshold `0.0016` made five orders of magnitude
away), and the two coordinate contributions are summed. -/
def equatorMeters : DistFn := fun p q =>
  6371000 * (355 / 113) * (|p.1 - q.1| + |p.2 - q.2|) / 180

/-- Chebyshev distance between two cells: the window of
`NEIGHBORHOOD_SIZE` steps around a cell is exactly the cells at
Chebyshev distance at most `NEIGHBORHOOD_SIZE`. -/
def chebyshev (a b : CellKey) : Nat :=
  max (a.1 - b.1).natAbs (a.2 - b.2).natAbs

/-- Coin count of the cache currently at a cell, if any. -/
def cacheCoinCountAt (s : GameState) (k : CellKey) : Option Nat :=
  (mapGet s.cacheMap k).map (fun c => Cache.coinCount s.store c)

/-- A `Math.random()` stream that always yields `0.5`. -/
def rngHalf : Nat → ℚ := fun _ => 1 / 2

/-- A stream equal to `rngHalf` except that its first draw is `0.01`. -/
def rngC1 : Nat → ℚ := fun n => if n = 0 then 1 / 100 else 1 / 2

/-- A stream equal to `rngHalf` except at draw 434 — the draw that the
trace below spends on the spawn decision for cell `(5, 5)` after the
player returns. -/
def rngC2 : Nat → ℚ := fun n => if n = 434 then 1 / 100 else 1 / 2

/-- A degenerate external distance (keeps every cache): used where a run
must isolate the window loop from the eviction sweep. -/
def distZero : DistFn := fun _ _ => 0

/-- A position from which cell `(5, 5)` is far outside the window. -/
def posFar : ℚ × ℚ := (100 * TILE_DEGREES, 5 * TILE_DEGREES)

/-- The corner of cell `(5, 5)` — the player standing on it. -/
def posHome : ℚ × ℚ := (5 * TILE_DEGREES, 5 * TILE_DEGREES)

/-- Eviction/restoration trace, step 0: a cache spawns at `(5, 5)` with
3 coins (the first draw of `rngC2` is `0.5`). -/
def evictDemo0 : GameState := spawnCache 5 5 (initState rngC2)

/-- Step 1: the player collects; the cache now has 0 coins. -/
def evictDemo1 : GameState := collectHandler (5, 5) evictDemo0

/-- Step 2: recomputation with the player far away; `(5, 5)` leaves the
window and the eviction branch fires for it. -/
def evictDemo2 : GameState := regenerateCachesAround equatorMeters posFar evictDemo1

/-- Step 3: recomputation with the player back on `(5, 5)`. -/
def evictDemo3 : GameState := regenerateCachesAround equatorMeters posHome evictDemo2

/-- A live cache at cell `(0, 1)`, one step from the player cell. -/
def evictionDemoStart : GameState := spawnCache 0 1 (initState rngHalf)

/-- Recomputation with the player at `(0, 0)` — cell `(0, 1)` is inside
the window. -/
def evictionDemoEnd : GameState := regenerateCachesAround equatorMeters (0, 0) evictionDemoStart

/-- Serial-reuse trace: a cache at `(0, 0)` spawns with coins of serials
`0, 1, 2`. -/
def serialReuseDemo0 : GameState := spawnCache 0 0 (initState rngHalf)

/-- The player collects the 3 coins (inventory becomes 3). -/
def serialReuseDemo1 : GameState := collectHandler (0, 0) serialReuseDemo0

/-- A state with a nonempty inventory, about to process `#reset`. -/
def resetDemoState : GameState := { initState rngHalf with playerInventory := 5 }

/-- A coin held by the cache before the memento is taken. -/
def coinA : Coin := ⟨0, 0, 0⟩

/-- A coin added to the live cache after restoration. -/
def coinB : Coin := ⟨0, 0, 7⟩

/-- The memento snapshot of a cache holding `[coinA]`: the resulting
store, updated cache, and memento array reference. -/
def aliasDemoSave : CoinArrayStore × Cache × Nat :=
  Cache.saveState [[coinA]] ⟨0, 0, 0, none⟩

/-- After `restoreState` from that memento, `addCoins [coinB]` pushes
onto the live collection — which is the memento array itself. -/
def aliasDemoStore2 : CoinArrayStore :=
  Cache.addCoins aliasDemoSave.1 (Cache.restoreState aliasDemoSave.2.1 aliasDemoSave.2.2) [coinB]

/-- A state with a live cache at `(0, 0)` holding one coin, inventory 2,
and coin-serial counter 5: the generic deposit input. -/
def depositDemoState : GameState :=
  { store := [[⟨0, 0, 0⟩]], cacheMap := [((0, 0), ⟨0, 0, 0, none⟩)],
    playerPoints := 10, playerInventory := 2, coinIdCounter := 5,
    rng := rngHalf, rngIdx := 0, playerLat := 0, playerLng := 0 }

/-- The cache object of `depositDemoState`. -/
def depositDemoCache : Cache := ⟨0, 0, 0, none⟩

/-- The keys of the cache map, in insertion order. -/
def mapKeys (m : CacheMap) : List CellKey := m.map Prod.fst

/-- Invariant: the cache map holds at most one entry per key. -/
def keysNodup (s : GameState) : Prop := (mapKeys s.cacheMap).Nodup

/-- Number of live-cache entries recorded for one cell. -/
def countCellEntries (m : CacheMap) (k : CellKey) : Nat :=
  ((mapKeys m).filter (fun x => decide (x = k))).length

theorem readRef_append_length (st : CoinArrayStore) (v : List Coin) :
    readRef (st ++ [v]) st.length = v := by
  induction st with
  | nil => rfl
  | cons a t ih =>
    simp only [readRef, List.cons_append, List.length_cons, List.getD_cons_succ]
    exact ih

theorem readRef_writeRef_self (st : CoinArrayStore) (r : Nat) (v : List Coin)
    (h : r < st.length) : readRef (writeRef st r v) r = v := by
  induction st generalizing r with
  | nil => simp at h
  | cons a t ih =>
    cases r with
    | zero => rfl
    | succ n =>
      have := ih n (by simpa using h)
      simpa [readRef, writeRef, List.getD] using this

theorem mapGet_mapSet_self (m : CacheMap) (k : CellKey) (v : Cache) :
    mapGet (mapSet m k v) k = some v := by
  induction m with
  | nil => simp [mapSet, mapGet]
  | cons e t ih =>
    by_cases h : e.1 = k
    · simp [mapSet, mapGet, h]
    · simp [mapSet, mapGet, h, ih]

theorem mem_mapKeys_mapSet (m : CacheMap) (k x : CellKey) (v : Cache) :
    x ∈ mapKeys (mapSet m k v) ↔ x = k ∨ x ∈ mapKeys m := by
  induction m with
  | nil => simp [mapSet, mapKeys]
  | cons e t ih =>
    by_cases h : e.1 = k
    · have hs : mapSet (e :: t) k v = (k, v) :: t := by simp [mapSet, h]
      rw [hs]
      simp only [mapKeys, List.map_cons, List.mem_cons, h]
      tauto
    · have hs : mapSet (e :: t) k v = e :: mapSet t k v := by simp [mapSet, h]
      rw [hs]
      simp only [mapKeys, List.map_cons, List.mem_cons] at ih ⊢
      rw [ih]
      tauto

theorem nodup_mapKeys_mapSet (m : CacheMap) (k : CellKey) (v : Cache)
    (hm : (mapKeys m).Nodup) : (mapKeys (mapSet m k v)).Nodup := by
  induction m with
  | nil => simp [mapSet, mapKeys]
  | cons e t ih =>
    simp only [mapKeys, List.map_cons, List.nodup_cons] at hm
    by_cases h : e.1 = k
    · simp only [mapSet, if_pos h, mapKeys, List.map_cons, List.nodup_cons]
      exact ⟨by rw [← h]; exact hm.1, hm.2⟩
    · simp only [mapSet, if_neg h, mapKeys, List.map_cons, List.nodup_cons]
      refine ⟨fun hmem => ?_, ih hm.2⟩
      rcases (mem_mapKeys_mapSet t k e.1 v).mp hmem with heq | hin
      · exact h heq
      · exact hm.1 hin

theorem mapKeys_mapDelete_sublist (m : CacheMap) (k : CellKey) :
    (mapKeys (mapDelete m k)).Sublist (mapKeys m) := by
  induction m with
  | nil => simp [mapDelete, mapKeys]
  | cons e t ih =>
    by_cases h : e.1 = k
    · simp only [mapDelete, if_pos h, mapKeys, List.map_cons]
      exact ih.cons e.1
    · simp only [mapDelete, if_neg h, mapKeys, List.map_cons]
      exact ih.cons₂ e.1

theorem nodup_mapKeys_mapDelete (m : CacheMap) (k : CellKey)
    (hm : (mapKeys m).Nodup) : (mapKeys (mapDelete m k)).Nodup :=
  List.Nodup.sublist (mapKeys_mapDelete_sublist m k) hm

theorem foldl_inv {σ α : Type _} (f : σ → α → σ) (P : σ → Prop)
    (hstep : ∀ s a, P s → P (f s a)) :
    ∀ (l : List α) (s : σ), P s → P (l.foldl f s) := by
  intro l
  induction l with
  | nil => intro s h; simpa using h
  | cons a t ih => intro s h; simpa using ih (f s a) (hstep s a h)

theorem keysNodup_spawnCache (i j : Int) (s : GameState) (h : keysNodup s) :
    keysNodup (spawnCache i j s) :=
  nodup_mapKeys_mapSet s.cacheMap (i, j) _ h

theorem keysNodup_collectHandler (k : CellKey) (s : GameState) (h : keysNodup s) :
    keysNodup (collectHandler k s) := by
  unfold collectHandler
  cases hg : mapGet s.cacheMap k with
  | none => exact h
  | some cache =>
    dsimp only
    split
    · exact nodup_mapKeys_mapSet s.cacheMap k _ h
    · exact h

theorem keysNodup_depositHandler (k : CellKey) (s : GameState) (h : keysNodup s) :
    keysNodup (depositHandler k s) := by
  unfold depositHandler
  cases hg : mapGet s.cacheMap k with
  | none => exact h
  | some cache =>
    dsimp only
    split
    · exact h
    · exact h

theorem keysNodup_regenCellStep (s : GameState) (k : CellKey) (h : keysNodup s) :
    keysNodup (regenCellStep s k) := by
  unfold regenCellStep
  cases hg : mapGet s.cacheMap k with
  | none =>
    dsimp only
    split
    · exact keysNodup_spawnCache k.1 k.2 _ h
    · exact h
  | some cache =>
    dsimp only
    cases hm : cache.memento with
    | none => exact keysNodup_spawnCache k.1 k.2 s h
    | some m =>
      exact keysNodup_spawnCache k.1 k.2 _ (nodup_mapKeys_mapSet s.cacheMap k _ h)

theorem keysNodup_evictStep (dist : DistFn) (pos : ℚ × ℚ) (s : GameState)
    (e : CellKey × Cache) (h : keysNodup s) : keysNodup (evictStep dist pos s e) := by
  unfold evictStep
  split
  · exact nodup_mapKeys_mapDelete s.cacheMap e.1 h
  · exact h

theorem keysNodup_regenerateCachesAround (dist : DistFn) (pos : ℚ × ℚ) (s : GameState)
    (h : keysNodup s) : keysNodup (regenerateCachesAround dist pos s) := by
  unfold regenerateCachesAround
  exact foldl_inv _ keysNodup (fun t e ht => keysNodup_evictStep dist pos t e ht) _ _
    (foldl_inv _ keysNodup (fun t c ht => keysNodup_regenCellStep t c ht) _ _ h)

theorem keysNodup_movePlayer (dist : DistFn) (dx dy : ℚ) (s : GameState)
    (h : keysNodup s) : keysNodup (movePlayer dist dx dy s) := by
  unfold movePlayer
  exact keysNodup_regenerateCachesAround dist _ _ h

theorem keysNodup_updateNeighborhood (center : ℚ × ℚ) (s : GameState)
    (h : keysNodup s) : keysNodup (updateNeighborhood center s) := by
  unfold updateNeighborhood
  refine foldl_inv _ keysNodup (fun t c ht => ?_) _ _ h
  dsimp only
  split
  · exact keysNodup_spawnCache c.1 c.2 t ht
  · exact ht

theorem keysNodup_resetHandler (ok : Bool) (s : GameState) (h : keysNodup s) :
    keysNodup (resetHandler ok s) := by
  unfold resetHandler
  refine foldl_inv _ keysNodup (fun t c ht => ?_) _ _ ?_
  · dsimp only
    split
    · exact keysNodup_spawnCache c.1 c.2 _ ht
    · exact ht
  · split
    · exact keysNodup_updateNeighborhood PLAYER_START _ h
    · exact h

theorem keysNodup_stepOp (dist : DistFn) (s : GameState) (op : GameOp) (h : keysNodup s) :
    keysNodup (stepOp dist s op) := by
  cases op with
  | move dx dy => exact keysNodup_movePlayer dist dx dy s h
  | clickCollect i j => exact keysNodup_collectHandler (i, j) s h
  | clickDeposit i j => exact keysNodup_depositHandler (i, j) s h
  | spawnDirect i j => exact keysNodup_spawnCache i j s h
  | neighborhoodUpdate lat lng => exact keysNodup_updateNeighborhood (lat, lng) s h
  | resetClick ok => exact keysNodup_resetHandler ok s h
  | resetGameClick => exact h

theorem keysNodup_runOps (dist : DistFn) (rng : Nat → ℚ) (ops : List GameOp) :
    keysNodup (runOps dist rng ops) :=
  foldl_inv _ keysNodup (fun t op ht => keysNodup_stepOp dist t op ht) ops
    (initState rng) List.nodup_nil

theorem spawnCache_coinIdCounter (i j : Int) (s : GameState) :
    (spawnCache i j s).coinIdCounter = s.coinIdCounter := rfl

theorem foldl_coinIdCounter {α : Type _} (f : GameState → α → GameState)
    (hf : ∀ s a, (f s a).coinIdCounter = s.coinIdCounter) :
    ∀ (l : List α) (s : GameState), (l.foldl f s).coinIdCounter = s.coinIdCounter := by
  intro l
  induction l with
  | nil => intro s; rfl
  | cons a t ih => intro s; rw [List.foldl_cons, ih, hf]

theorem collectHandler_coinIdCounter (k : CellKey) (s : GameState) :
    (collectHandler k s).coinIdCounter = s.coinIdCounter := by
  unfold collectHandler
  cases hg : mapGet s.cacheMap k with
  | none => rfl
  | some cache =>
    dsimp only
    split
    · rfl
    · rfl

theorem regenCellStep_coinIdCounter (s : GameState) (k : CellKey) :
    (regenCellStep s k).coinIdCounter = s.coinIdCounter := by
  unfold regenCellStep
  cases hg : mapGet s.cacheMap k with
  | none =>
    dsimp only
    split
    · rfl
    · rfl
  | some cache =>
    dsimp only
    cases hm : cache.memento with
    | none => rfl
    | some m => rfl

theorem evictStep_coinIdCounter (dist : DistFn) (pos : ℚ × ℚ) (s : GameState)
    (e : CellKey × Cache) : (evictStep dist pos s e).coinIdCounter = s.coinIdCounter := by
  unfold evictStep
  split
  · rfl
  · rfl

theorem regenerateCachesAround_coinIdCounter (dist : DistFn) (pos : ℚ × ℚ) (s : GameState) :
    (regenerateCachesAround dist pos s).coinIdCounter = s.coinIdCounter := by
  unfold regenerateCachesAround
  rw [foldl_coinIdCounter _ (fun t e => evictStep_coinIdCounter dist pos t e),
    foldl_coinIdCounter _ (fun t c => regenCellStep_coinIdCounter t c)]

theorem movePlayer_coinIdCounter (dist : DistFn) (dx dy : ℚ) (s : GameState) :
    (movePlayer dist dx dy s).coinIdCounter = s.coinIdCounter := by
  unfold movePlayer
  exact regenerateCachesAround_coinIdCounter dist _ _

theorem updateNeighborhood_coinIdCounter (center : ℚ × ℚ) (s : GameState) :
    (updateNeighborhood center s).coinIdCounter = s.coinIdCounter := by
  unfold updateNeighborhood
  refine foldl_coinIdCounter _ (fun t c => ?_) _ s
  dsimp only
  split
  · rfl
  · rfl

theorem resetHandler_coinIdCounter (ok : Bool) (s : GameState) :
    (resetHandler ok s).coinIdCounter = s.coinIdCounter := by
  unfold resetHandler
  rw [foldl_coinIdCounter]
  · split
    · exact updateNeighborhood_coinIdCounter PLAYER_START _
    · rfl
  · intro t c
    dsimp only
    split
    · rfl
    · rfl

theorem depositHandler_coinIdCounter_le (k : CellKey) (s : GameState) :
    s.coinIdCounter ≤ (depositHandler k s).coinIdCounter := by
  unfold depositHandler
  cases hg : mapGet s.cacheMap k with
  | none => exact Nat.le_refl _
  | some cache =>
    dsimp only
    split
    · exact Nat.le_add_right _ _
    · exact Nat.le_refl _

theorem stepOp_coinIdCounter_le (dist : DistFn) (s : GameState) (op : GameOp) :
    s.coinIdCounter ≤ (stepOp dist s op).coinIdCounter := by
  cases op with
  | move dx dy => exact Nat.le_of_eq (movePlayer_coinIdCounter dist dx dy s).symm
  | clickCollect i j => exact Nat.le_of_eq (collectHandler_coinIdCounter (i, j) s).symm
  | clickDeposit i j => exact depositHandler_coinIdCounter_le (i, j) s
  | spawnDirect i j => exact Nat.le_refl _
  | neighborhoodUpdate lat lng =>
    exact Nat.le_of_eq (updateNeighborhood_coinIdCounter (lat, lng) s).symm
  | resetClick ok => exact Nat.le_of_eq (resetHandler_coinIdCounter ok s).symm
  | resetGameClick => exact Nat.le_refl _

theorem depositHandler_coinIdCounter_of_some (k : CellKey) (s : GameState) (cache : Cache)
    (hg : mapGet s.cacheMap k = some cache) (hn : 0 < s.playerInventory) :
    (depositHandler k s).coinIdCounter = s.coinIdCounter + s.playerInventory := by
  unfold depositHandler
  rw [hg]
  dsimp only
  rw [if_pos hn]

theorem emittedSerials_nodup (s : GameState) (op : GameOp) :
    (emittedSerials s op).Nodup := by
  cases op with
  | clickDeposit i j =>
    show (if (mapGet s.cacheMap (i, j)).isSome ∧ 0 < s.playerInventory then
        (List.range s.playerInventory).map (fun m => s.coinIdCounter + m)
      else []).Nodup
    split
    · exact List.Nodup.map (fun a b hab => Nat.add_left_cancel hab) (List.nodup_range _)
    · exact List.nodup_nil
  | move dx dy => exact List.nodup_nil
  | clickCollect i j => exact List.nodup_nil
  | spawnDirect i j => exact List.nodup_nil
  | neighborhoodUpdate lat lng => exact List.nodup_nil
  | resetClick ok => exact List.nodup_nil
  | resetGameClick => exact List.nodup_nil

theorem emittedSerials_bounds (dist : DistFn) (s : GameState) (op : GameOp) :
    ∀ x ∈ emittedSerials s op,
      s.coinIdCounter ≤ x ∧ x < (stepOp dist s op).coinIdCounter := by
  cases op with
  | clickDeposit i j =>
    intro x hx
    replace hx : x ∈ (if (mapGet s.cacheMap (i, j)).isSome ∧ 0 < s.playerInventory then
        (List.range s.playerInventory).map (fun m => s.coinIdCounter + m)
      else ([] : List Nat)) := hx
    by_cases hc : (mapGet s.cacheMap (i, j)).isSome ∧ 0 < s.playerInventory
    · rw [if_pos hc] at hx
      simp only [List.mem_map, List.mem_range] at hx
      obtain ⟨m, hm, rfl⟩ := hx
      obtain ⟨cache, hcache⟩ := Option.isSome_iff_exists.mp hc.1
      have hcnt : (stepOp dist s (GameOp.clickDeposit i j)).coinIdCounter
          = s.coinIdCounter + s.playerInventory := by
        show (depositHandler (i, j) s).coinIdCounter = s.coinIdCounter + s.playerInventory
        exact depositHandler_coinIdCounter_of_some (i, j) s cache hcache hc.2
      rw [hcnt]
      omega
    · rw [if_neg hc] at hx
      exact absurd hx (List.not_mem_nil x)
  | move dx dy => intro x hx; exact absurd hx (List.not_mem_nil x)
  | clickCollect i j => intro x hx; exact absurd hx (List.not_mem_nil x)
  | spawnDirect i j => intro x hx; exact absurd hx (List.not_mem_nil x)
  | neighborhoodUpdate lat lng => intro x hx; exact absurd hx (List.not_mem_nil x)
  | resetClick ok => intro x hx; exact absurd hx (List.not_mem_nil x)
  | resetGameClick => intro x hx; exact absurd hx (List.not_mem_nil x)

theorem depositHandler_store_eq (k : CellKey) (s : GameState) (cache : Cache)
    (hg : mapGet s.cacheMap k = some cache) (hn : 0 < s.playerInventory)
    (hv : cache.coinsRef < s.store.length) :
    readRef (depositHandler k s).store cache.coinsRef
      = readRef s.store cache.coinsRef
        ++ (List.range s.playerInventory).map
            (fun m => ⟨cache.i, cache.j, s.coinIdCounter + m⟩) := by
  unfold depositHandler
  rw [hg]
  dsimp only
  rw [if_pos hn]
  dsimp only
  unfold Cache.addCoins
  exact readRef_writeRef_self _ _ _ hv

theorem depositHandler_fields (k : CellKey) (s : GameState) (cache : Cache)
    (hg : mapGet s.cacheMap k = some cache) (hn : 0 < s.playerInventory) :
    (depositHandler k s).playerPoints = s.playerPoints + s.playerInventory ∧
    (depositHandler k s).playerInventory = 0 ∧
    (depositHandler k s).coinIdCounter = s.coinIdCounter + s.playerInventory := by
  unfold depositHandler
  rw [hg]
  dsimp only
  rw [if_pos hn]
  exact ⟨rfl, rfl, rfl⟩

theorem spawnCache_cacheMap (i j : Int) (s : GameState) :
    (spawnCache i j s).cacheMap = mapSet s.cacheMap (i, j) ⟨i, j, s.store.length, none⟩ := rfl

theorem spawnCache_mapGet (i j : Int) (s : GameState) :
    mapGet (spawnCache i j s).cacheMap (i, j) = some ⟨i, j, s.store.length, none⟩ := by
  rw [spawnCache_cacheMap]
  exact mapGet_mapSet_self _ _ _

theorem spawnCache_coins (i j : Int) (s : GameState) :
    readRef (spawnCache i j s).store s.store.length
      = (List.range (spawnCoinNum (s.rng s.rngIdx))).map (fun serial => ⟨i, j, serial⟩) := by
  have h1 : (spawnCache i j s).store
      = writeRef (s.store ++ [[]]) s.store.length
          (readRef (s.store ++ [[]]) s.store.length
            ++ (List.range (spawnCoinNum (s.rng s.rngIdx))).map
                (fun serial => ⟨i, j, serial⟩)) := rfl
  rw [h1, readRef_writeRef_self _ _ _ (by simp), readRef_append_length, List.nil_append]

theorem spawnCoinNum_bounds (q : ℚ) (h0 : 0 ≤ q) (h1 : q < 1) :
    1 ≤ spawnCoinNum q ∧ spawnCoinNum q ≤ 5 := by
  unfold spawnCoinNum
  refine ⟨by omega, ?_⟩
  have hlt : Int.floor (q * 5) < 5 := by
    rw [Int.floor_lt]
    push_cast
    nlinarith
  have hge : (0 : Int) ≤ Int.floor (q * 5) := by
    apply Int.floor_nonneg.mpr
    positivity
  omega

theorem filterEq_length_le_one {α : Type _} [DecidableEq α] :
    ∀ (l : List α), l.Nodup → ∀ a : α, (l.filter (fun x => decide (x = a))).length ≤ 1 := by
  intro l
  induction l with
  | nil => intro _ a; simp
  | cons b t ih =>
    intro h a
    rw [List.nodup_cons] at h
    by_cases hba : b = a
    · rw [List.filter_cons_of_pos (by simpa using hba)]
      have hnil : t.filter (fun x => decide (x = a)) = [] := by
        rw [List.filter_eq_nil_iff]
        intro x hx
        simp only [decide_eq_true_eq]
        intro hxa
        exact h.1 (by rw [← hba] at hxa; rw [← hxa]; exact hx)
      simp [hnil]
    · rw [List.filter_cons_of_neg (by simpa using hba)]
      exact ih h.2 a

/-- C1 (counterexample): the spawn decision of `regenerateCachesAround`
is NOT independent of the mutable `Math.random()` stream.  Two runs at
the same position, from the same cell state (no live cache and no
memento for `(-8, -8)` in either), with streams differing only in one
drawn value, disagree on whether a cache exists at `(-8, -8)`. -/
theorem regen_spawn_decision_rng_dependent :
    (mapGet (regenerateCachesAround distZero (0, 0) (initState rngHalf)).cacheMap
        (-8, -8)).isSome = false ∧
    (mapGet (regenerateCachesAround distZero (0, 0) (initState rngC1)).cacheMap
        (-8, -8)).isSome = true := by
  decide!

/-- C1 (amended): the `luck`-based spawn decision of `updateNeighborhood`
in `part_000` is a pure function of the cell: whenever two window
recomputations (with arbitrary centers) both cover a cell, they make the
same spawn decision for it, independent of call order, of the other
cells queried, and of any random-number stream (none is consulted). -/
theorem spawn_decision_luck_deterministic (c1 c2 : ℚ × ℚ) (k : CellKey)
    (h1 : k ∈ windowCells (neighborCellI c1) (neighborCellJ c1))
    (h2 : k ∈ windowCells (neighborCellI c2) (neighborCellJ c2)) :
    (k ∈ updateNeighborhoodSpawnedCells c1) ↔ (k ∈ updateNeighborhoodSpawnedCells c2) := by
  unfold updateNeighborhoodSpawnedCells
  constructor
  · intro h
    exact List.mem_filter.mpr ⟨h2, (List.mem_filter.mp h).2⟩
  · intro h
    exact List.mem_filter.mpr ⟨h1, (List.mem_filter.mp h).2⟩

/-- C1 (witness): two concrete overlapping windows, one centered at the
player start and one a tile north of it, agree on the spawn decision for
cell `(0, 0)`. -/
theorem spawn_decision_luck_deterministic_witness :
    ((0, 0) ∈ updateNeighborhoodSpawnedCells PLAYER_START) ↔
      ((0, 0) ∈ updateNeighborhoodSpawnedCells (PLAYER_START.1 + 1 / 10000, PLAYER_START.2)) :=
  spawn_decision_luck_deterministic PLAYER_START
    (PLAYER_START.1 + 1 / 10000, PLAYER_START.2) (0, 0) (by decide!) (by decide!)

/-- C2: player mutations are NOT preserved across an eviction cycle.  In
the concrete trace: the cache at `(5, 5)` is collected down to 0 coins
(inventory 3); the recomputation with the player far away evicts it — and
deletes the map entry that is the only path to the saved memento; the
recomputation after the player returns finds no entry, re-rolls, and
produces a fresh cache with 3 coins instead of the mutated 0. -/
theorem mutation_lost_on_eviction_cycle :
    cacheCoinCountAt evictDemo1 (5, 5) = some 0 ∧
    evictDemo1.playerInventory = 3 ∧
    mapGet evictDemo2.cacheMap (5, 5) = none ∧
    cacheCoinCountAt evictDemo3 (5, 5) = some 3 := by
  decide!

/-- C3 (counterexample): a deposit reuses serials already seen in the
cell lineage.  The cache at `(0, 0)` spawns with coins of serials
`0, 1, 2`; after collecting them, depositing the 3-coin inventory mints
coins with serials `0, 1, 2` again (the global counter was still 0). -/
theorem deposit_serial_reuse :
    readRef serialReuseDemo0.store 0 = [⟨0, 0, 0⟩, ⟨0, 0, 1⟩, ⟨0, 0, 2⟩] ∧
    mapGet serialReuseDemo1.cacheMap (0, 0) = some ⟨0, 0, 1, none⟩ ∧
    readRef (depositHandler (0, 0) serialReuseDemo1).store 1
      = [⟨0, 0, 0⟩, ⟨0, 0, 1⟩, ⟨0, 0, 2⟩] := by
  decide!

/-- C3 (amended): serials minted by deposits are globally fresh: along
any event sequence — eviction/restoration cycles included — no two
deposited coins ever receive the same serial, because deposits draw from
the monotone global `coinIdCounter`.  (Spawn-time serials, by contrast,
restart from 0 and may collide with them.) -/
theorem deposited_serials_never_reused (dist : DistFn) (rng : Nat → ℚ) (ops : List GameOp) :
    (depositedSerials dist rng ops).Nodup := by
  have step : ∀ (p : GameState × List Nat) (op : GameOp),
      (p.2.Nodup ∧ ∀ x ∈ p.2, x < p.1.coinIdCounter) →
      ((depositedSerialsAux dist p op).2.Nodup ∧
        ∀ x ∈ (depositedSerialsAux dist p op).2,
          x < (depositedSerialsAux dist p op).1.coinIdCounter) := by
    rintro ⟨s, acc⟩ op ⟨hnd, hub⟩
    dsimp only at hnd hub
    dsimp [depositedSerialsAux]
    constructor
    · rw [List.nodup_append]
      refine ⟨hnd, emittedSerials_nodup s op, ?_⟩
      intro x hx hx'
      have hb1 := hub x hx
      have hb2 := (emittedSerials_bounds dist s op x hx').1
      omega
    · intro x hx
      rcases List.mem_append.mp hx with h | h
      · have hb1 := hub x h
        have hb2 := stepOp_coinIdCounter_le dist s op
        omega
      · exact (emittedSerials_bounds dist s op x h).2
  have main := foldl_inv (depositedSerialsAux dist)
      (fun p => p.2.Nodup ∧ ∀ x ∈ p.2, x < p.1.coinIdCounter)
      step ops (initState rng, [])
      ⟨List.nodup_nil, fun x hx => absurd hx (List.not_mem_nil x)⟩
  exact main.1

/-- C4: the memento is corrupted through the restored live cache.  After
snapshotting a cache holding one coin, `restoreState` makes the live
collection an alias of the memento array, so a subsequent `addCoins`
mutates the stored memento from `[coinA]` to `[coinA, coinB]`. -/
theorem restore_aliases_memento :
    readRef aliasDemoSave.1 aliasDemoSave.2.2 = [coinA] ∧
    (Cache.restoreState aliasDemoSave.2.1 aliasDemoSave.2.2).coinsRef = aliasDemoSave.2.2 ∧
    readRef aliasDemoStore2 aliasDemoSave.2.2 = [coinA, coinB] := by
  decide!

/-- C5: a live cache whose cell is inside the window IS evicted by the
recomputation.  With the player at `(0, 0)` the cell `(0, 1)` is at
Chebyshev distance 1 (inside the 8-cell window), yet its leaflet
distance is about 11 meters, which exceeds the degree-scale threshold
`TILE_DEGREES * NEIGHBORHOOD_SIZE * 2 = 0.0016`, so the sweep removes
it. -/
theorem in_window_cache_evicted :
    chebyshev (playerCellOf (0, 0)) (0, 1) ≤ NEIGHBORHOOD_SIZE.toNat ∧
    (mapGet evictionDemoStart.cacheMap (0, 1)).isSome = true ∧
    mapGet evictionDemoEnd.cacheMap (0, 1) = none := by
  decide!

/-- C6: after any event sequence, the live-cache map has at most one
entry per distinct cell: the entry keys are pairwise distinct, so the
multiplicity of any cell among the keys is at most 1. -/
theorem live_cache_per_cell_unique (dist : DistFn) (rng : Nat → ℚ) (ops : List GameOp)
    (k : CellKey) : countCellEntries (runOps dist rng ops).cacheMap k ≤ 1 :=
  filterEq_length_le_one _ (keysNodup_runOps dist rng ops) k

/-- C7: `collectCoins` returns exactly the number of coins that were
present (0 for an empty cache) and leaves the cache with `coinCount`
equal to 0. -/
theorem collect_empties_and_returns_count (st : CoinArrayStore) (c : Cache) :
    (Cache.collectCoins st c).1 = Cache.coinCount st c ∧
    Cache.coinCount (Cache.collectCoins st c).2.1 (Cache.collectCoins st c).2.2 = 0 := by
  refine ⟨rfl, ?_⟩
  show (readRef (st ++ [[]]) st.length).length = 0
  rw [readRef_append_length]
  rfl

/-- C8: with a positive inventory `n`, the deposit handler appends
exactly `n` coins, carrying the `n` distinct fresh serials
`coinIdCounter ..< coinIdCounter + n`, to the cache's held collection,
adds `n` to the banked score, zeroes the inventory, and advances the
monotonic counter by `n`. -/
theorem deposit_appends_fresh_serials (s : GameState) (k : CellKey) (cache : Cache)
    (hg : mapGet s.cacheMap k = some cache) (hv : cache.coinsRef < s.store.length)
    (hn : 0 < s.playerInventory) :
    readRef (depositHandler k s).store cache.coinsRef
      = readRef s.store cache.coinsRef
        ++ (List.range s.playerInventory).map
            (fun m => ⟨cache.i, cache.j, s.coinIdCounter + m⟩) ∧
    ((List.range s.playerInventory).map (fun m => s.coinIdCounter + m)).Nodup ∧
    (depositHandler k s).playerPoints = s.playerPoints + s.playerInventory ∧
    (depositHandler k s).playerInventory = 0 ∧
    (depositHandler k s).coinIdCounter = s.coinIdCounter + s.playerInventory := by
  obtain ⟨hp, hi, hc⟩ := depositHandler_fields k s cache hg hn
  exact ⟨depositHandler_store_eq k s cache hg hn hv,
    List.Nodup.map (fun a b hab => Nat.add_left_cancel hab) (List.nodup_range _),
    hp, hi, hc⟩

/-- C8 (witness): the deposit specification evaluated on a concrete
state holding one cache with one coin, inventory 2 and counter 5. -/
theorem deposit_appends_fresh_serials_witness :
    readRef (depositHandler (0, 0) depositDemoState).store depositDemoCache.coinsRef
      = readRef depositDemoState.store depositDemoCache.coinsRef
        ++ (List.range depositDemoState.playerInventory).map
            (fun m => ⟨depositDemoCache.i, depositDemoCache.j,
              depositDemoState.coinIdCounter + m⟩) ∧
    ((List.range depositDemoState.playerInventory).map
        (fun m => depositDemoState.coinIdCounter + m)).Nodup ∧
    (depositHandler (0, 0) depositDemoState).playerPoints
      = depositDemoState.playerPoints + depositDemoState.playerInventory ∧
    (depositHandler (0, 0) depositDemoState).playerInventory = 0 ∧
    (depositHandler (0, 0) depositDemoState).coinIdCounter
      = depositDemoState.coinIdCounter + depositDemoState.playerInventory :=
  deposit_appends_fresh_serials depositDemoState (0, 0) depositDemoCache
    (by decide!) (by decide!) (by decide!)

/-- C9 (counterexample): the `#reset` click handler of `part_000`, with
the confirm dialog accepted, zeroes the banked score but leaves the held
inventory untouched: processing it on a state with inventory 5 ends with
inventory 5, not 0. -/
theorem reset_click_keeps_inventory :
    (resetHandler true resetDemoState).playerPoints = 0 ∧
    (resetHandler true resetDemoState).playerInventory = 5 ∧
    (resetHandler true resetDemoState).playerInventory ≠ 0 := by
  decide!

/-- C9 (amended): the `#resetGame` click handler sets both the banked
score and the held inventory to 0 in every state; the `#reset` handler
of `part_000` resets only the score (and only when confirmed). -/
theorem resetGame_clears_score_and_inventory (s : GameState) :
    (resetGameHandler s).playerPoints = 0 ∧ (resetGameHandler s).playerInventory = 0 :=
  ⟨rfl, rfl⟩

/-- C10: a fresh spawn draws a coin count of 1 to 5 from the random
stream and initializes its coins with serials exactly `0 ..< count`,
independent of `coinIdCounter` (which it leaves untouched) and of any
coins previously produced for the cell (the state may already hold a
cache there); by contrast, a deposit on that cell appends coins whose
serials are drawn from the global counter. -/
theorem spawn_serials_restart_from_zero (s : GameState) (i j : Int) (cache : Cache)
    (h0 : 0 ≤ s.rng s.rngIdx) (h1 : s.rng s.rngIdx < 1)
    (hg : mapGet s.cacheMap (i, j) = some cache) (hv : cache.coinsRef < s.store.length)
    (hn : 0 < s.playerInventory) :
    1 ≤ spawnCoinNum (s.rng s.rngIdx) ∧ spawnCoinNum (s.rng s.rngIdx) ≤ 5 ∧
    mapGet (spawnCache i j s).cacheMap (i, j) = some ⟨i, j, s.store.length, none⟩ ∧
    readRef (spawnCache i j s).store s.store.length
      = (List.range (spawnCoinNum (s.rng s.rngIdx))).map (fun serial => ⟨i, j, serial⟩) ∧
    (spawnCache i j s).coinIdCounter = s.coinIdCounter ∧
    readRef (depositHandler (i, j) s).store cache.coinsRef
      = readRef s.store cache.coinsRef
        ++ (List.range s.playerInventory).map
            (fun m => ⟨cache.i, cache.j, s.coinIdCounter + m⟩) := by
  obtain ⟨ha, hb⟩ := spawnCoinNum_bounds (s.rng s.rngIdx) h0 h1
  exact ⟨ha, hb, spawnCache_mapGet i j s, spawnCache_coins i j s,
    spawnCache_coinIdCounter i j s, depositHandler_store_eq (i, j) s cache hg hn hv⟩

/-- C10 (witness): the spawn/deposit serial contrast evaluated on the
concrete deposit demo state (random draw `0.5`, existing cache at
`(0, 0)`, counter 5). -/
theorem spawn_serials_restart_from_zero_witness :
    1 ≤ spawnCoinNum (depositDemoState.rng depositDemoState.rngIdx) ∧
    spawnCoinNum (depositDemoState.rng depositDemoState.rngIdx) ≤ 5 ∧
    mapGet (spawnCache 0 0 depositDemoState).cacheMap (0, 0)
      = some ⟨0, 0, depositDemoState.store.length, none⟩ ∧
    readRef (spawnCache 0 0 depositDemoState).store depositDemoState.store.length
      = (List.range (spawnCoinNum (depositDemoState.rng depositDemoState.rngIdx))).map
          (fun serial => ⟨0, 0, serial⟩) ∧
    (spawnCache 0 0 depositDemoState).coinIdCounter = depositDemoState.coinIdCounter ∧
    readRef (depositHandler (0, 0) depositDemoState).store depositDemoCache.coinsRef
      = readRef depositDemoState.store depositDemoCache.coinsRef
        ++ (List.range depositDemoState.playerInventory).map
            (fun m => ⟨depositDemoCache.i, depositDemoCache.j,
              depositDemoState.coinIdCounter + m⟩) :=
  spawn_serials_restart_from_zero depositDemoState 0 0 depositDemoCache
    (by decide!) (by decide!) (by decide!) (by decide!) (by decide!)
